import Mathlib

/-!
Verification of the Workspace Snapshots checkpoint engine
(src/SnapshotProvider.ts, src/Git.ts, src/ReadonlyContentProvider.ts).

The engine keeps a shadow git repository next to the user's working tree.
A checkpoint ("snapshot") is a git commit in that shadow repository whose
tree is the full working tree as staged by `git add -A`.  Snapshot
deletion, renaming and the restored marker are JSON metadata kept by the
provider; they never touch the shadow repository.

The shallow embedding below models:
 - file trees as association lists from path to content;
 - the shadow repository as the ordered list of commit trees (index `k`
   in the list is commit `k`; commit `k`'s parent is commit `k - 1`,
   commit `0` is the empty "Initial snapshot repository" commit created
   by `Git.createInitialCommit`), plus the git index (staging area) and
   the live working tree;
 - the provider state as the git state plus the persisted metadata
   (names, restoredSnapshotId, deletedSnapshotIds) and the last flushed
   copy of that metadata (`saved`, mirroring the metadata JSON file).

Behaviour of the git commands themselves (`status --porcelain -uall`,
`commit`, `restore --source=h --worktree -- .`, `show h:path`,
`show --name-status`) is modelled from the documented git semantics at
the granularity the TypeScript code observes.
-/

namespace WorkspaceSnapshots

/-- A file tree: association list from path to file content.
The first binding for a path wins, matching lookup order. -/
abbrev Tree := List (String × String)

/-- Content of path `p` in tree `t`, if present. -/
def treeFind (t : Tree) (p : String) : Option String :=
  match t with
  | [] => none
  | (q, c) :: rest => if q = p then some c else treeFind rest p

/-- The paths bound in a tree. -/
def treeKeys (t : Tree) : List String := t.map Prod.fst

/-- File status letters used by `Git.getStatus` / `Git.getChangedFiles`
(`'A' | 'M' | 'D'` in src/Git.ts). -/
inductive FStatus where
  | A
  | M
  | D
deriving DecidableEq, Repr

/-- `FileChange` from src/Git.ts: a path together with its status letter. -/
structure FileChange where
  status : FStatus
  path : String
deriving DecidableEq, Repr

/-- Pathwise diff of two trees, classifying each path exactly as
`SnapshotProvider` consumes git diffs: absent→present is `A`,
present→absent is `D`, present→present with different bytes is `M`,
identical bytes produce no entry. -/
def treeDiff (old new : Tree) : List FileChange :=
  ((treeKeys old ++ treeKeys new).dedup).filterMap fun p =>
    match treeFind old p, treeFind new p with
    | none, none => none
    | none, some _ => some ⟨.A, p⟩
    | some _, none => some ⟨.D, p⟩
    | some a, some b => if a = b then none else some ⟨.M, p⟩

/-- State of the shadow git repository.

`trees` lists the commits oldest first: `trees[k]` is the tree of commit
`k`, whose parent is commit `k - 1` (commit `0`, the initial empty
commit, has no parent).  HEAD is always the last commit: the provider
never moves it (`Git.restore` uses `--worktree` only).  `index` is the
staging area and `work` the user's live working tree. -/
structure GitState where
  trees : List Tree
  index : Tree
  work : Tree
deriving DecidableEq, Repr

namespace Git

/-- Tree of the HEAD commit (the last commit in the log). -/
def headTree (g : GitState) : Tree := (g.trees.getD (g.trees.length - 1) [])

/-- `Git.stageAll`: `git add -A .` stages the whole working tree. -/
def stageAll (g : GitState) : GitState := { g with index := g.work }

/-- One column of a porcelain status code: comparison of two versions of
one path (absent/absent is blank, appearing is `A`, vanishing is `D`,
differing content is `M`). -/
def xyChar (a b : Option String) : Char :=
  match a, b with
  | none, none => ' '
  | none, some _ => 'A'
  | some _, none => 'D'
  | some x, some y => if x = y then ' ' else 'M'

/-- The status code `git status --porcelain -uall` prints for one path,
already trimmed the way `Git.getStatus` trims each line before taking
the characters up to the first space: `none` when the path is not
listed, `['?', '?']` for untracked, otherwise the non-blank column
letters. `h`, `i`, `w` are the path's content at HEAD, in the index and
in the working tree. -/
def porcelainCode (h i w : Option String) : Option (List Char) :=
  if h = none ∧ i = none then
    match w with
    | none => none
    | some _ => some ['?', '?']
  else
    let x := xyChar h i
    let y := xyChar i w
    if x = ' ' ∧ y = ' ' then none
    else if y = ' ' then some [x]
    else if x = ' ' then some [y]
    else some [x, y]

/-- `Git.getStatus`'s mapping from a trimmed status code to a status
letter: codes starting with `A` and `??` map to `A`, codes starting
with `D` map to `D`, everything else maps to `M`. -/
def codeToStatus (c : List Char) : FStatus :=
  if c.head? = some 'A' ∨ c = ['?', '?'] then .A
  else if c.head? = some 'D' then .D
  else .M

/-- `Git.getStatus`: parse `git status --porcelain -uall` into
`FileChange`s, one per path that differs between HEAD, index and
working tree. -/
def getStatus (g : GitState) : List FileChange :=
  ((treeKeys (headTree g) ++ treeKeys g.index ++ treeKeys g.work).dedup).filterMap fun p =>
    (porcelainCode (treeFind (headTree g) p) (treeFind g.index p) (treeFind g.work p)).map
      fun c => ⟨codeToStatus c, p⟩

/-- `Git.commit`: `git commit --no-verify -m msg` commits the index as a
new child of HEAD.  git refuses with "nothing to commit" (a non-zero
exit, rejected by `execute`) when the index tree equals HEAD's tree. -/
def commit (g : GitState) : Option GitState :=
  if treeDiff (headTree g) g.index = [] then none
  else some { g with trees := g.trees ++ [g.index] }

/-- `Git.restore`: `git restore --source=h --worktree -- .`.  Fails when
`h` names no commit.  Otherwise every path present in the source tree is
written with the source content, every tracked path (present in the
index) absent from the source tree is removed, and untracked paths
absent from the source tree are left alone.  HEAD and the index are not
touched. -/
def restore (g : GitState) (h : Nat) : Option GitState :=
  match g.trees[h]? with
  | none => none
  | some src =>
    some { g with
      work := src ++ g.work.filter fun e =>
        (treeFind src e.1).isNone && (treeFind g.index e.1).isNone }

/-- `Git.getChangedFiles`: `git show --name-status --pretty="" h`, the
per-path diff of commit `h` against its parent (the empty tree for the
initial commit); `SnapshotProvider` renders these as a snapshot's
changes.  Unknown commits yield no lines. -/
def getChangedFiles (g : GitState) (h : Nat) : List FileChange :=
  match g.trees[h]? with
  | none => []
  | some t => if h = 0 then treeDiff [] t else treeDiff (g.trees.getD (h - 1) []) t

/-- `Git.show`: `git show h:path` prints the blob; on any git error
(unknown commit, or path absent from the commit's tree) the catch block
returns the empty string.  (`show` is a Lean keyword, hence `showFile`.) -/
def showFile (g : GitState) (h : Nat) (p : String) : String :=
  match g.trees[h]? with
  | none => ""
  | some t => (treeFind t p).getD ""

end Git

/-- The persisted snapshot metadata (`<workspaceId>-metadata.json`):
label overrides, the single restored-marker pointer, and the tombstone
set, exactly the three fields `saveMetadata` writes. -/
structure Meta where
  names : List (Nat × String)
  restoredSnapshotId : Option Nat
  deletedSnapshotIds : List Nat
deriving DecidableEq, Repr

/-- The empty metadata state a freshly constructed provider starts with. -/
def emptyMeta : Meta := ⟨[], none, []⟩

/-- In-memory state of `SnapshotProvider`: the shadow git state, the
three metadata fields, and `saved`, the copy of the metadata currently
flushed to disk (so "writes no metadata" is observable). -/
structure ProviderState where
  git : GitState
  names : List (Nat × String)
  restoredSnapshotId : Option Nat
  deletedSnapshotIds : List Nat
  saved : Meta
deriving DecidableEq, Repr

namespace SnapshotProvider

/-- The metadata the provider would persist right now. -/
def currentMeta (s : ProviderState) : Meta :=
  ⟨s.names, s.restoredSnapshotId, s.deletedSnapshotIds⟩

/-- `saveMetadata`: flush the three metadata fields to the JSON file. -/
def saveMetadata (s : ProviderState) : ProviderState :=
  { s with saved := currentMeta s }

/-- A JavaScript array is always truthy, so the `if (!status)` guard in
`createSnapshot` is false for every result of `Git.getStatus`
(including the empty array). -/
def jsArrayIsFalsy (_ : List FileChange) : Bool := false

/-- `SnapshotProvider.createSnapshot`: stage everything, fetch the
status, throw "No changes detected since the last snapshot." if the
status is falsy (never, since it is an array), then `git commit` —
which itself fails when nothing is staged — and on success clear the
restored marker and flush metadata.  The first component is the thrown
error message, if any; the second the resulting in-memory state. -/
def createSnapshot (s : ProviderState) : Option String × ProviderState :=
  let g := Git.stageAll s.git
  let st := Git.getStatus g
  if jsArrayIsFalsy st then
    (some "No changes detected since the last snapshot.", { s with git := g })
  else
    match Git.commit g with
    | none => (some "Git command failed: commit", { s with git := g })
    | some g2 => (none, saveMetadata { s with git := g2, restoredSnapshotId := none })

/-- `SnapshotProvider.restoreSnapshot`: run `git restore` (which throws
for an unknown commit), then record the restored marker and flush
metadata.  No check against `deletedSnapshotIds` is made. -/
def restoreSnapshot (s : ProviderState) (h : Nat) : Option String × ProviderState :=
  match Git.restore s.git h with
  | none => (some "Git command failed: restore", s)
  | some g2 => (none, saveMetadata { s with git := g2, restoredSnapshotId := some h })

/-- Insertion into `deletedSnapshotIds`, a JS `Set` (adding an existing
element is a no-op). -/
def insertId (h : Nat) (l : List Nat) : List Nat := if h ∈ l then l else h :: l

/-- `SnapshotProvider.deleteSnapshot`: add the hash to the tombstone
set, clear the restored marker if it pointed at this hash, flush
metadata.  The shadow repository is not touched. -/
def deleteSnapshot (s : ProviderState) (h : Nat) : ProviderState :=
  saveMetadata
    { s with
      deletedSnapshotIds := insertId h s.deletedSnapshotIds,
      restoredSnapshotId :=
        if s.restoredSnapshotId = some h then none else s.restoredSnapshotId }

/-- `SnapshotProvider.renameSnapshot`: pure metadata update. -/
def renameSnapshot (s : ProviderState) (h : Nat) (newName : String) : ProviderState :=
  saveMetadata { s with names := (h, newName) :: s.names.filter (fun e => !(e.1 = h)) }

/-- The commit-cache walk of `findVisibleParentHash`, on the linear
parent chain (commit `k + 1`'s parent is commit `k`; commit `0` has
none): step to the parent, return it if it is not tombstoned, keep
walking otherwise, and return `none` from the initial commit. -/
def walkParent (deleted : List Nat) : Nat → Option Nat
  | 0 => none
  | k + 1 => if k ∈ deleted then walkParent deleted k else some k

/-- `SnapshotProvider.findVisibleParentHash`: nearest non-tombstoned
ancestor of `h`, or `none` when `h` is not in the commit cache or the
walk reaches the parentless initial commit. -/
def findVisibleParentHash (s : ProviderState) (h : Nat) : Option Nat :=
  if h < s.git.trees.length then walkParent s.deletedSnapshotIds h else none

/-- `ReadonlyContentProvider.provideTextDocumentContent` for a diff-side
URI: `commit=none` (encoded here as `Option.none`) yields empty content,
otherwise the content of the path at that commit via `Git.show` (with
every failure mapped to the empty string). -/
def provideContent (s : ProviderState) (c : Option Nat) (p : String) : String :=
  match c with
  | none => ""
  | some h => Git.showFile s.git h p

/-- The content shown on the left ("previous") side of the diff that
`getDiffUris` builds for path `p` at snapshot `h` in compare-to-previous
mode: the content at `findVisibleParentHash h`. -/
def anchorContent (s : ProviderState) (h : Nat) (p : String) : String :=
  provideContent s (findVisibleParentHash s h) p

/-- The hashes listed by `getChildren` at top level: every commit with a
parent (everything except the initial commit) that is not tombstoned,
in log order. -/
def visibleSnapshots (s : ProviderState) : List Nat :=
  (List.range s.git.trees.length).filter fun h =>
    !(h = 0 : Bool) && !(s.deletedSnapshotIds.contains h)

/-- Whether `getChildren` would flag snapshot `h` as `(Restored)`. -/
def snapshotIsRestored (s : ProviderState) (h : Nat) : Bool :=
  s.restoredSnapshotId = some h

/-- `SnapshotProvider.loadMetadata`.  The metadata file on disk is
modelled as: `none` when the file does not exist (the function returns
without touching the fields), `some none` when reading or JSON-parsing
throws (the catch block resets all three fields), and `some (some m)`
for a successfully parsed metadata value. -/
def loadMetadata (prior : Meta) (file : Option (Option Meta)) : Meta :=
  match file with
  | none => prior
  | some none => emptyMeta
  | some (some m) => m

/-- Provider state assembled at startup from a git state and the
metadata produced by `loadMetadata` (with that metadata on disk). -/
def startup (g : GitState) (m : Meta) : ProviderState :=
  ⟨g, m.names, m.restoredSnapshotId, m.deletedSnapshotIds, m⟩

end SnapshotProvider

/-! ### Comparison log for the history-healing property -/

/-- Modelled from the spec's healing property ("identical to what they
would return had C2 never existed"): the provider state whose shadow log
is the original one with commit `i` removed (later commits shift down by
one) and with `i` dropped from the tombstone set. -/
def logWithout (s : ProviderState) (i : Nat) : ProviderState :=
  { s with
    git := { s.git with trees := s.git.trees.eraseIdx i },
    deletedSnapshotIds := s.deletedSnapshotIds.erase i }

/-! ### Concrete runs used as witnesses and counterexamples

Each state is one the engine reaches by the operations above (plus user
edits of the working tree, which are external).  Trees are written
explicitly; commit `0` is always the empty initial commit. -/

/-- Two snapshots of file `a` (`v1` then `v2`), fully staged, live tree
still at `v2`; no tombstones, no restored marker. -/
def exTwoSnaps : ProviderState :=
  ⟨⟨[[], [("a", "v1")], [("a", "v2")]], [("a", "v2")], [("a", "v2")]⟩,
    [], none, [], emptyMeta⟩

/-- Same log as `exTwoSnaps` but with the head snapshot `2` tombstoned
and the working tree restored to snapshot `1`'s state. -/
def exHeadTombstoned : ProviderState :=
  ⟨⟨[[], [("a", "v1")], [("a", "v2")]], [("a", "v2")], [("a", "v1")]⟩,
    [], none, [2], emptyMeta⟩

/-- Four snapshots: `a` = `v1`, `a` = `v2`, then `b` = `w` added (a
checkpoint not mentioning `a`), then `a` = `v3`; snapshot `2` is
tombstoned. -/
def exIntervening : ProviderState :=
  ⟨⟨[[], [("a", "v1")], [("a", "v2")], [("a", "v2"), ("b", "w")],
      [("a", "v3"), ("b", "w")]],
    [("a", "v3"), ("b", "w")], [("a", "v3"), ("b", "w")]⟩,
    [], none, [2], emptyMeta⟩

/-- Three consecutive snapshots of `a` (`v1`, `v2`, `v3`) with the
middle one tombstoned. -/
def exConsecutive : ProviderState :=
  ⟨⟨[[], [("a", "v1")], [("a", "v2")], [("a", "v3")]],
    [("a", "v3")], [("a", "v3")]⟩,
    [], none, [2], emptyMeta⟩

/-- One snapshot of `a`, after which the user created a new file `u`
that was never staged (untracked). -/
def exUntracked : ProviderState :=
  ⟨⟨[[], [("a", "v1")]], [("a", "v1")], [("a", "v1"), ("u", "x")]⟩,
    [], none, [], emptyMeta⟩

/-- One snapshot, tombstoned; working tree still matches it. -/
def exTombstonedOnly : ProviderState :=
  ⟨⟨[[], [("a", "v1")]], [("a", "v1")], [("a", "v1")]⟩,
    [], none, [1], emptyMeta⟩

/-- One snapshot of `a`, restored marker on it, and a pending edit of
`a` in the working tree. -/
def exRestoredPending : ProviderState :=
  ⟨⟨[[], [("a", "v1")]], [("a", "v1")], [("a", "v2")]⟩,
    [], some 1, [], emptyMeta⟩

/-- Two snapshots: first adds `a` = `v1` and an empty file `e`; the
second deletes `a`. -/
def exDeletedPath : ProviderState :=
  ⟨⟨[[], [("a", "v1"), ("e", "")], [("e", "")]], [("e", "")], [("e", "")]⟩,
    [], none, [], emptyMeta⟩

/-- Two snapshots with the first one tombstoned (every predecessor of
snapshot `2` is tombstoned). -/
def exAllPriorTombstoned : ProviderState :=
  ⟨⟨[[], [("a", "v1")], [("a", "v2")]], [("a", "v2")], [("a", "v2")]⟩,
    [], none, [1], emptyMeta⟩

/-- A bare shadow log with two snapshots, used for startup claims. -/
def exStartupGit : GitState :=
  ⟨[[], [("a", "v1")], [("a", "v2")]], [("a", "v2")], [("a", "v2")]⟩

/-! ### Basic lemmas about trees, diffs and status -/

theorem treeFind_eq_none_of_not_mem_keys {t : Tree} {p : String} (h : p ∉ treeKeys t) :
    treeFind t p = none := by
  induction t with
  | nil => rfl
  | cons e rest ih =>
    simp only [treeKeys, List.map_cons, List.mem_cons, not_or] at h
    have he : ¬ e.1 = p := fun hc => h.1 hc.symm
    simp only [treeFind, if_neg he]
    exact ih h.2

theorem porcelainCode_staged_eq_none_iff (a b : Option String) :
    Git.porcelainCode a b b = none ↔ a = b := by
  unfold Git.porcelainCode Git.xyChar
  cases a <;> cases b <;> simp_all

theorem treeDiff_eq_nil_iff (old new : Tree) :
    treeDiff old new = [] ↔ ∀ p, treeFind old p = treeFind new p := by
  unfold treeDiff
  rw [List.filterMap_eq_nil_iff]
  constructor
  · intro h p
    by_cases hp : p ∈ (treeKeys old ++ treeKeys new).dedup
    · have hh := h p hp
      cases ho : treeFind old p with
      | none =>
        cases hn : treeFind new p with
        | none => rfl
        | some b => rw [ho, hn] at hh; simp at hh
      | some a =>
        cases hn : treeFind new p with
        | none => rw [ho, hn] at hh; simp at hh
        | some b =>
          rw [ho, hn] at hh
          by_cases hab : a = b
          · subst hab
            rfl
          · simp [hab] at hh
    · rw [List.mem_dedup, List.mem_append, not_or] at hp
      rw [treeFind_eq_none_of_not_mem_keys hp.1, treeFind_eq_none_of_not_mem_keys hp.2]
  · intro h p _
    rw [h p]
    cases treeFind new p with
    | none => rfl
    | some b => simp

theorem getStatus_stageAll_eq_nil_iff (g : GitState) :
    Git.getStatus (Git.stageAll g) = [] ↔
      ∀ p, treeFind (Git.headTree g) p = treeFind g.work p := by
  have hg : Git.getStatus (Git.stageAll g) =
      ((treeKeys (Git.headTree g) ++ treeKeys g.work ++ treeKeys g.work).dedup).filterMap
        (fun p => (Git.porcelainCode (treeFind (Git.headTree g) p) (treeFind g.work p)
            (treeFind g.work p)).map fun c => ⟨Git.codeToStatus c, p⟩) := rfl
  rw [hg, List.filterMap_eq_nil_iff]
  constructor
  · intro h p
    by_cases hp :
        p ∈ (treeKeys (Git.headTree g) ++ treeKeys g.work ++ treeKeys g.work).dedup
    · have hh := h p hp
      cases hpc : Git.porcelainCode (treeFind (Git.headTree g) p) (treeFind g.work p)
          (treeFind g.work p) with
      | none => exact (porcelainCode_staged_eq_none_iff _ _).mp hpc
      | some c => rw [hpc] at hh; simp at hh
    · rw [List.mem_dedup, List.mem_append, not_or] at hp
      have hp1 : p ∉ treeKeys (Git.headTree g) := fun hc =>
        hp.1 (List.mem_append_left _ hc)
      rw [treeFind_eq_none_of_not_mem_keys hp1, treeFind_eq_none_of_not_mem_keys hp.2]
  · intro h p _
    rw [(porcelainCode_staged_eq_none_iff _ _).mpr (h p)]
    rfl

theorem commit_eq_none_iff (g : GitState) :
    Git.commit g = none ↔ ∀ p, treeFind (Git.headTree g) p = treeFind g.index p := by
  unfold Git.commit
  rw [← treeDiff_eq_nil_iff]
  by_cases h : treeDiff (Git.headTree g) g.index = [] <;> simp [h]

theorem treeFind_append_of_some {s : Tree} (t : Tree) {p : String} {c : String}
    (h : treeFind s p = some c) : treeFind (s ++ t) p = some c := by
  induction s with
  | nil => simp [treeFind] at h
  | cons e rest ih =>
    by_cases he : e.1 = p
    · simp only [treeFind, if_pos he] at h
      simp [treeFind, he, h]
    · simp only [treeFind, if_neg he] at h
      simp [treeFind, he, ih h]

theorem treeFind_append_of_none {s : Tree} (t : Tree) {p : String}
    (h : treeFind s p = none) : treeFind (s ++ t) p = treeFind t p := by
  induction s with
  | nil => rfl
  | cons e rest ih =>
    by_cases he : e.1 = p
    · simp [treeFind, he] at h
    · simp only [treeFind, if_neg he] at h
      simp [treeFind, he, ih h]

theorem treeFind_filter_of_all_kept {w : Tree} {q : String × String → Bool} {p : String}
    (hq : ∀ c, q (p, c) = true) : treeFind (w.filter q) p = treeFind w p := by
  induction w with
  | nil => rfl
  | cons e rest ih =>
    by_cases he : e.1 = p
    · have : q e = true := by
        obtain ⟨e1, e2⟩ := e
        simp only at he
        rw [he]
        exact hq e2
      simp [List.filter_cons, this, treeFind, he]
    · cases hqe : q e <;> simp [List.filter_cons, hqe, treeFind, he, ih]

theorem treeFind_filter_of_all_dropped {w : Tree} {q : String × String → Bool} {p : String}
    (hq : ∀ c, q (p, c) = false) : treeFind (w.filter q) p = none := by
  induction w with
  | nil => rfl
  | cons e rest ih =>
    by_cases he : e.1 = p
    · have : q e = false := by
        obtain ⟨e1, e2⟩ := e
        simp only at he
        rw [he]
        exact hq e2
      simp [List.filter_cons, this, ih]
    · cases hqe : q e <;> simp [List.filter_cons, hqe, treeFind, he, ih]

theorem treeFind_eq_none_of_mem_treeDiff_D {old new : Tree} {p : String}
    (hm : (⟨FStatus.D, p⟩ : FileChange) ∈ treeDiff old new) : treeFind new p = none := by
  unfold treeDiff at hm
  obtain ⟨q, hq, hfq⟩ := List.mem_filterMap.mp hm
  cases ho : treeFind old q <;> cases hn : treeFind new q <;> rw [ho, hn] at hfq
  · simp at hfq
  · simp at hfq
  · simp only [Option.some_inj, FileChange.mk.injEq] at hfq
    rw [← hfq.2]
    exact hn
  · rename_i a b
    by_cases hab : a = b <;> simp [hab] at hfq

theorem walkParent_all_deleted : ∀ (d : List Nat) (h : Nat), 1 ≤ h → 0 ∉ d →
    (∀ j, j < h → 1 ≤ j → j ∈ d) → SnapshotProvider.walkParent d h = some 0
  | _, 0, h1, _, _ => by omega
  | d, 1, _, h0, _ => by simp [SnapshotProvider.walkParent, h0]
  | d, (m + 2), _, h0, hall => by
    have hk : (m + 1) ∈ d := hall (m + 1) (by omega) (by omega)
    have hstep : SnapshotProvider.walkParent d (m + 2) =
        SnapshotProvider.walkParent d (m + 1) := by
      simp [SnapshotProvider.walkParent, hk]
    rw [hstep]
    exact walkParent_all_deleted d (m + 1) (by omega) h0
      (fun j hj h1j => hall j (by omega) h1j)

theorem commit_appends {g gc : GitState} (hc : Git.commit g = some gc) :
    gc.trees = g.trees ++ [g.index] ∧ gc.index = g.index ∧ gc.work = g.work := by
  unfold Git.commit at hc
  by_cases hd : treeDiff (Git.headTree g) g.index = []
  · rw [if_pos hd] at hc
    simp at hc
  · rw [if_neg hd] at hc
    rw [← Option.some_inj.mp hc]
    exact ⟨rfl, rfl, rfl⟩

theorem createSnapshot_success_spec (s : ProviderState)
    (hc : (SnapshotProvider.createSnapshot s).1 = none) :
    (SnapshotProvider.createSnapshot s).2.git.trees = s.git.trees ++ [s.git.work] ∧
    (SnapshotProvider.createSnapshot s).2.git.work = s.git.work := by
  unfold SnapshotProvider.createSnapshot at hc ⊢
  simp only [SnapshotProvider.jsArrayIsFalsy, Bool.false_eq_true, if_false] at hc ⊢
  cases hcm : Git.commit (Git.stageAll s.git) with
  | none =>
    rw [hcm] at hc
    simp at hc
  | some gc =>
    obtain ⟨ht, hi, hw⟩ := commit_appends hcm
    constructor
    · show gc.trees = s.git.trees ++ [s.git.work]
      rw [ht]
      rfl
    · show gc.work = s.git.work
      rw [hw]
      rfl

/-! ### Claims -/

/-- C6: `restoreSnapshot` (the engine's `markRestored`) succeeds for any
hash naming an existing commit — tombstoned or not, contrary to the
claim's "fails if tombstoned" — and fails exactly for hashes outside the
log; on success the single restored marker is set to that hash. -/
theorem restoreSnapshot_fails_only_for_unknown_commit (s : ProviderState) (h : Nat) :
    (h < s.git.trees.length →
      (SnapshotProvider.restoreSnapshot s h).1 = none ∧
      (SnapshotProvider.restoreSnapshot s h).2.restoredSnapshotId = some h) ∧
    (s.git.trees.length ≤ h →
      ((SnapshotProvider.restoreSnapshot s h).1).isSome = true ∧
      (SnapshotProvider.restoreSnapshot s h).2 = s) := by
  constructor
  · intro hlt
    cases hg : s.git.trees[h]? with
    | none =>
      rw [List.getElem?_eq_getElem hlt] at hg
      simp at hg
    | some src =>
      simp [SnapshotProvider.restoreSnapshot, Git.restore, hg,
        SnapshotProvider.saveMetadata]
  · intro hge
    have hg : s.git.trees[h]? = none := List.getElem?_eq_none hge
    simp [SnapshotProvider.restoreSnapshot, Git.restore, hg]

theorem restoreSnapshot_fails_only_for_unknown_commit_witness :
    (SnapshotProvider.restoreSnapshot exTwoSnaps 1).1 = none ∧
    (SnapshotProvider.restoreSnapshot exTwoSnaps 1).2.restoredSnapshotId = some 1 :=
  (restoreSnapshot_fails_only_for_unknown_commit exTwoSnaps 1).1 (by decide)

/-- C6 counterexample: snapshot `1` is tombstoned, yet `restoreSnapshot`
succeeds and sets the restored marker to it, where the claim demands
failure for tombstoned ids. -/
theorem restoreSnapshot_succeeds_on_tombstoned :
    1 ∈ exTombstonedOnly.deletedSnapshotIds ∧
    (SnapshotProvider.restoreSnapshot exTombstonedOnly 1).1 = none ∧
    (SnapshotProvider.restoreSnapshot exTombstonedOnly 1).2.restoredSnapshotId = some 1 := by
  decide

/-- C7: the restored marker is a single pointer, so at most one snapshot
is ever flagged restored; a successful `createSnapshot` leaves the
marker cleared both in memory and in the flushed metadata; and
tombstoning the currently-restored snapshot clears the marker. -/
theorem restored_marker_unique_and_cleared (s : ProviderState) (h1 h2 hd : Nat) :
    (SnapshotProvider.snapshotIsRestored s h1 = true →
      SnapshotProvider.snapshotIsRestored s h2 = true → h1 = h2) ∧
    ((SnapshotProvider.createSnapshot s).1 = none →
      (SnapshotProvider.createSnapshot s).2.restoredSnapshotId = none ∧
      (SnapshotProvider.createSnapshot s).2.saved.restoredSnapshotId = none) ∧
    (s.restoredSnapshotId = some hd →
      (SnapshotProvider.deleteSnapshot s hd).restoredSnapshotId = none ∧
      (SnapshotProvider.deleteSnapshot s hd).saved.restoredSnapshotId = none) := by
  refine ⟨?_, ?_, ?_⟩
  · intro a b
    unfold SnapshotProvider.snapshotIsRestored at a b
    rw [decide_eq_true_iff] at a b
    rw [a] at b
    exact Option.some_inj.mp b
  · intro hok
    unfold SnapshotProvider.createSnapshot at hok ⊢
    cases hc : Git.commit (Git.stageAll s.git) with
    | none => simp [SnapshotProvider.jsArrayIsFalsy, hc] at hok
    | some g2 =>
      simp [SnapshotProvider.jsArrayIsFalsy, hc, SnapshotProvider.saveMetadata,
        SnapshotProvider.currentMeta]
  · intro hr
    constructor <;>
      simp [SnapshotProvider.deleteSnapshot, SnapshotProvider.saveMetadata,
        SnapshotProvider.currentMeta, hr]

theorem restored_marker_unique_and_cleared_witness :
    (1 = 1) ∧
    ((SnapshotProvider.createSnapshot exRestoredPending).2.restoredSnapshotId = none ∧
      (SnapshotProvider.createSnapshot exRestoredPending).2.saved.restoredSnapshotId = none) ∧
    ((SnapshotProvider.deleteSnapshot exRestoredPending 1).restoredSnapshotId = none ∧
      (SnapshotProvider.deleteSnapshot exRestoredPending 1).saved.restoredSnapshotId = none) :=
  ⟨(restored_marker_unique_and_cleared exRestoredPending 1 1 1).1 (by decide) (by decide),
    (restored_marker_unique_and_cleared exRestoredPending 1 1 1).2.1 (by decide),
    (restored_marker_unique_and_cleared exRestoredPending 1 1 1).2.2 (by decide)⟩

/-- C1: after restoring to checkpoint `k`, a subsequent successful
`createSnapshot` appends a commit whose recorded changes are the diff of
the live (restored) working tree against the *head* checkpoint — the
new commit's parent is the old head, because `git restore` never moves
HEAD — not against the restored checkpoint `k`. -/
theorem restore_then_checkpoint_diffs_against_head (s : ProviderState) (k : Nat)
    (hr : (SnapshotProvider.restoreSnapshot s k).1 = none)
    (hc : (SnapshotProvider.createSnapshot
      (SnapshotProvider.restoreSnapshot s k).2).1 = none) :
    (SnapshotProvider.createSnapshot
        (SnapshotProvider.restoreSnapshot s k).2).2.git.trees.length =
      s.git.trees.length + 1 ∧
    Git.getChangedFiles
        (SnapshotProvider.createSnapshot (SnapshotProvider.restoreSnapshot s k).2).2.git
        s.git.trees.length =
      treeDiff (Git.headTree s.git) ((SnapshotProvider.restoreSnapshot s k).2.git.work) := by
  have hex : ∃ src, s.git.trees[k]? = some src := by
    cases hg : s.git.trees[k]? with
    | some src => exact ⟨src, rfl⟩
    | none =>
      have hfail : SnapshotProvider.restoreSnapshot s k =
          (some "Git command failed: restore", s) := by
        unfold SnapshotProvider.restoreSnapshot Git.restore
        rw [hg]
      rw [hfail] at hr
      simp at hr
  obtain ⟨src, hg⟩ := hex
  obtain ⟨hk, -⟩ := List.getElem?_eq_some.mp hg
  have h1trees : (SnapshotProvider.restoreSnapshot s k).2.git.trees = s.git.trees := by
    unfold SnapshotProvider.restoreSnapshot Git.restore
    rw [hg]
    exact rfl
  obtain ⟨h2trees, -⟩ := createSnapshot_success_spec _ hc
  rw [h1trees] at h2trees
  constructor
  · rw [h2trees]
    simp
  · unfold Git.getChangedFiles
    rw [h2trees, List.getElem?_concat_length]
    show (if s.git.trees.length = 0 then
        treeDiff [] (SnapshotProvider.restoreSnapshot s k).2.git.work
      else treeDiff
        ((s.git.trees ++ [(SnapshotProvider.restoreSnapshot s k).2.git.work]).getD
          (s.git.trees.length - 1) [])
        (SnapshotProvider.restoreSnapshot s k).2.git.work) =
      treeDiff (Git.headTree s.git) ((SnapshotProvider.restoreSnapshot s k).2.git.work)
    rw [if_neg (by omega)]
    congr 1
    unfold Git.headTree
    rw [List.getD_eq_getElem?_getD, List.getD_eq_getElem?_getD, List.getElem?_append,
      if_pos (by omega)]

theorem restore_then_checkpoint_diffs_against_head_witness :
    (SnapshotProvider.createSnapshot
        (SnapshotProvider.restoreSnapshot exTwoSnaps 1).2).2.git.trees.length =
      exTwoSnaps.git.trees.length + 1 ∧
    Git.getChangedFiles
        (SnapshotProvider.createSnapshot
          (SnapshotProvider.restoreSnapshot exTwoSnaps 1).2).2.git
        exTwoSnaps.git.trees.length =
      treeDiff (Git.headTree exTwoSnaps.git)
        ((SnapshotProvider.restoreSnapshot exTwoSnaps 1).2.git.work) :=
  restore_then_checkpoint_diffs_against_head exTwoSnaps 1 (by decide) (by decide)

/-- C1 counterexample: with checkpoints `1` (`a` = `v1`) and `2`
(`a` = `v2`), restore to `1` and append: the live tree equals
checkpoint `1`'s cumulative state, so the claimed changes set (live
tree vs. the restored checkpoint `1`) is empty, yet the appended
checkpoint `3` records `[(a, Modified)]`, the diff against the head
checkpoint `2`. -/
theorem restore_then_checkpoint_not_relative_to_restored_target :
    (SnapshotProvider.restoreSnapshot exTwoSnaps 1).2.git.work = [("a", "v1")] ∧
    exTwoSnaps.git.trees[1]? = some [("a", "v1")] ∧
    (SnapshotProvider.createSnapshot
      (SnapshotProvider.restoreSnapshot exTwoSnaps 1).2).1 = none ∧
    Git.getChangedFiles
        (SnapshotProvider.createSnapshot
          (SnapshotProvider.restoreSnapshot exTwoSnaps 1).2).2.git 3 =
      [⟨FStatus.M, "a"⟩] ∧
    treeDiff (SnapshotProvider.restoreSnapshot exTwoSnaps 1).2.git.work [("a", "v1")] = [] ∧
    ¬ Git.getChangedFiles
        (SnapshotProvider.createSnapshot
          (SnapshotProvider.restoreSnapshot exTwoSnaps 1).2).2.git 3 =
      treeDiff (SnapshotProvider.restoreSnapshot exTwoSnaps 1).2.git.work [("a", "v1")] := by
  decide

/-- C2: `createSnapshot` fails exactly when the working tree is
byte-identical to the *head* commit of the shadow log, visible or not
(tombstones are metadata-only and never move git HEAD) — and the
failure is the git commit error, because the `if (!status)` guard never
throws (a JS array is always truthy, so the `NoEffectiveChanges`
message is dead code); on failure no commit is appended and no metadata
is written. -/
theorem createSnapshot_noop_baseline_is_head (s : ProviderState) :
    ((SnapshotProvider.createSnapshot s).1 = some "Git command failed: commit" ↔
      ∀ p, treeFind (Git.headTree s.git) p = treeFind s.git.work p) ∧
    (¬ (SnapshotProvider.createSnapshot s).1 = none →
      (SnapshotProvider.createSnapshot s).2.git.trees = s.git.trees ∧
      (SnapshotProvider.createSnapshot s).2.saved = s.saved) := by
  have hcomm := commit_eq_none_iff (Git.stageAll s.git)
  have hhd : Git.headTree (Git.stageAll s.git) = Git.headTree s.git := rfl
  have hidx : (Git.stageAll s.git).index = s.git.work := rfl
  rw [hhd, hidx] at hcomm
  unfold SnapshotProvider.createSnapshot
  simp only [SnapshotProvider.jsArrayIsFalsy, Bool.false_eq_true, if_false]
  cases hc : Git.commit (Git.stageAll s.git) with
  | none =>
    refine ⟨⟨fun _ => hcomm.mp hc, fun _ => rfl⟩, fun _ => ⟨rfl, rfl⟩⟩
  | some g2 =>
    constructor
    · constructor
      · intro hx
        simp at hx
      · intro hall
        have hcn : Git.commit (Git.stageAll s.git) = none := hcomm.mpr hall
        rw [hc] at hcn
        simp at hcn
    · intro hx
      exact absurd rfl hx

theorem createSnapshot_noop_baseline_is_head_witness :
    (SnapshotProvider.createSnapshot exTwoSnaps).1 = some "Git command failed: commit" ∧
    ((SnapshotProvider.createSnapshot exTwoSnaps).2.git.trees = exTwoSnaps.git.trees ∧
      (SnapshotProvider.createSnapshot exTwoSnaps).2.saved = exTwoSnaps.saved) :=
  ⟨((createSnapshot_noop_baseline_is_head exTwoSnaps).1).mpr (fun p => rfl),
    (createSnapshot_noop_baseline_is_head exTwoSnaps).2 (by decide)⟩

/-- C2 counterexample: the head snapshot `2` is tombstoned and the
working tree is byte-identical to the last *visible* snapshot `1`, yet
`createSnapshot` succeeds and appends a new commit instead of failing
with the `NoEffectiveChanges` error and appending nothing. -/
theorem createSnapshot_succeeds_when_tree_matches_last_visible :
    SnapshotProvider.visibleSnapshots exHeadTombstoned = [1] ∧
    exHeadTombstoned.git.trees[1]? = some exHeadTombstoned.git.work ∧
    (SnapshotProvider.createSnapshot exHeadTombstoned).1 = none ∧
    (SnapshotProvider.createSnapshot exHeadTombstoned).2.git.trees.length = 4 := by
  decide

/-- C5: `deleteSnapshot` is a metadata-only tombstone: it records the
hash in the tombstone set (hiding the snapshot from listings and parent
walks), clears the restored marker when it pointed at that hash, and is
idempotent — but the shadow repository is untouched, so the snapshot's
recorded changes and content blobs remain stored and addressable. -/
theorem deleteSnapshot_metadata_only_idempotent (s : ProviderState) (h : Nat) :
    (SnapshotProvider.deleteSnapshot s h).git = s.git ∧
    h ∈ (SnapshotProvider.deleteSnapshot s h).deletedSnapshotIds ∧
    (∀ k, Git.getChangedFiles (SnapshotProvider.deleteSnapshot s h).git k =
      Git.getChangedFiles s.git k) ∧
    (∀ k p, Git.showFile (SnapshotProvider.deleteSnapshot s h).git k p =
      Git.showFile s.git k p) ∧
    SnapshotProvider.deleteSnapshot (SnapshotProvider.deleteSnapshot s h) h =
      SnapshotProvider.deleteSnapshot s h := by
  refine ⟨rfl, ?_, fun k => rfl, fun k p => rfl, ?_⟩
  · unfold SnapshotProvider.deleteSnapshot SnapshotProvider.saveMetadata
      SnapshotProvider.insertId
    by_cases hin : h ∈ s.deletedSnapshotIds <;> simp [hin]
  · unfold SnapshotProvider.deleteSnapshot SnapshotProvider.saveMetadata
      SnapshotProvider.currentMeta SnapshotProvider.insertId
    by_cases hin : h ∈ s.deletedSnapshotIds <;>
      by_cases hr : s.restoredSnapshotId = some h <;>
        simp [hin, hr]

/-- C5 counterexample: after `deleteSnapshot 2`, the tombstoned
snapshot's changes set is still reported by `getChangedFiles` and its
content blob is still served by `Git.show`, where the claim requires the
changes cleared and the blobs released from the store. -/
theorem deleteSnapshot_retains_changes_and_blobs :
    (SnapshotProvider.deleteSnapshot exTwoSnaps 2).deletedSnapshotIds = [2] ∧
    Git.getChangedFiles (SnapshotProvider.deleteSnapshot exTwoSnaps 2).git 2 =
      [⟨FStatus.M, "a"⟩] ∧
    ¬ Git.getChangedFiles (SnapshotProvider.deleteSnapshot exTwoSnaps 2).git 2 = [] ∧
    Git.showFile (SnapshotProvider.deleteSnapshot exTwoSnaps 2).git 2 "a" = "v2" ∧
    ¬ Git.showFile (SnapshotProvider.deleteSnapshot exTwoSnaps 2).git 2 "a" = "" := by
  decide

/-- C8: for a path recorded as `Deleted` at a snapshot, the content
lookup (`Git.show`, as served by `ReadonlyContentProvider`) returns the
empty string — the very value an empty file yields — rather than a
distinguished NotFound result; the path is indeed absent from the
snapshot's tree. -/
theorem deleted_path_content_empty_string (g : GitState) (h : Nat) (p : String)
    (hm : (⟨FStatus.D, p⟩ : FileChange) ∈ Git.getChangedFiles g h) :
    (∃ t, g.trees[h]? = some t ∧ treeFind t p = none) ∧
    Git.showFile g h p = "" := by
  unfold Git.getChangedFiles at hm
  cases hg : g.trees[h]? with
  | none =>
    rw [hg] at hm
    simp at hm
  | some t =>
    rw [hg] at hm
    have hm2 : (⟨FStatus.D, p⟩ : FileChange) ∈
        (if h = 0 then treeDiff [] t else treeDiff (g.trees.getD (h - 1) []) t) := hm
    have hfind : treeFind t p = none := by
      by_cases h0 : h = 0
      · rw [if_pos h0] at hm2
        exact treeFind_eq_none_of_mem_treeDiff_D hm2
      · rw [if_neg h0] at hm2
        exact treeFind_eq_none_of_mem_treeDiff_D hm2
    refine ⟨⟨t, rfl, hfind⟩, ?_⟩
    unfold Git.showFile
    rw [hg]
    show (treeFind t p).getD "" = ""
    rw [hfind]
    rfl

theorem deleted_path_content_empty_string_witness :
    (∃ t, exDeletedPath.git.trees[2]? = some t ∧ treeFind t "a" = none) ∧
    Git.showFile exDeletedPath.git 2 "a" = "" :=
  deleted_path_content_empty_string exDeletedPath.git 2 "a" (by decide)

/-- C8 counterexample: snapshot `2` deletes `a`, and the empty file `e`
is present in its tree; the content lookups for the deleted path and
for the empty file both return `""`, so the deleted path's lookup is
not distinguishable from an empty file, contrary to the claim. -/
theorem deleted_path_indistinguishable_from_empty_file :
    Git.getChangedFiles exDeletedPath.git 2 = [⟨FStatus.D, "a"⟩] ∧
    treeFind [("e", "")] "e" = some "" ∧
    Git.showFile exDeletedPath.git 2 "e" = "" ∧
    Git.showFile exDeletedPath.git 2 "a" = Git.showFile exDeletedPath.git 2 "e" := by
  decide

/-- C3: history healing holds for *consecutive* checkpoints: with
checkpoints `c`, `c + 1`, `c + 2` in the log, all mentioning path `P`,
`c + 1` tombstoned and `c` live, the nearest-prior-visible lookup
anchored at `c + 2` returns `c`, the fetched content is checkpoint `c`'s
cumulative state for `P`, and the result is identical to the log in
which checkpoint `c + 1` never existed (`logWithout`), where the lookup
anchored at the shifted checkpoint again yields `c` with the same
content. -/
theorem tombstone_healing_consecutive (s : ProviderState) (c : Nat) (τ : Tree) (P : String)
    (h1 : s.git.trees[c]? = some τ)
    (h3 : c + 2 < s.git.trees.length)
    (_hm1 : (Git.getChangedFiles s.git c).any (fun fc => fc.path = P) = true)
    (_hm2 : (Git.getChangedFiles s.git (c + 1)).any (fun fc => fc.path = P) = true)
    (_hm3 : (Git.getChangedFiles s.git (c + 2)).any (fun fc => fc.path = P) = true)
    (hd2 : (c + 1) ∈ s.deletedSnapshotIds)
    (hd1 : c ∉ s.deletedSnapshotIds) :
    (SnapshotProvider.findVisibleParentHash s (c + 2) = some c ∧
      SnapshotProvider.anchorContent s (c + 2) P = (treeFind τ P).getD "") ∧
    (SnapshotProvider.findVisibleParentHash (logWithout s (c + 1)) (c + 1) = some c ∧
      SnapshotProvider.anchorContent (logWithout s (c + 1)) (c + 1) P =
        (treeFind τ P).getD "") := by
  have hf1 : SnapshotProvider.findVisibleParentHash s (c + 2) = some c := by
    unfold SnapshotProvider.findVisibleParentHash
    rw [if_pos h3]
    simp [SnapshotProvider.walkParent, hd2, hd1]
  have hlen2 : (logWithout s (c + 1)).git.trees.length = s.git.trees.length - 1 := by
    show (s.git.trees.eraseIdx (c + 1)).length = s.git.trees.length - 1
    rw [List.length_eraseIdx, if_pos (by omega)]
  have hd1w : c ∉ (logWithout s (c + 1)).deletedSnapshotIds :=
    fun hmem => hd1 (List.mem_of_mem_erase hmem)
  have htree2 : (logWithout s (c + 1)).git.trees[c]? = some τ := by
    show (s.git.trees.eraseIdx (c + 1))[c]? = some τ
    rw [List.getElem?_eraseIdx, if_pos (by omega)]
    exact h1
  have hf2 : SnapshotProvider.findVisibleParentHash (logWithout s (c + 1)) (c + 1) =
      some c := by
    unfold SnapshotProvider.findVisibleParentHash
    rw [if_pos (by rw [hlen2]; omega)]
    simp [SnapshotProvider.walkParent, hd1w]
  refine ⟨⟨hf1, ?_⟩, ⟨hf2, ?_⟩⟩
  · unfold SnapshotProvider.anchorContent
    rw [hf1]
    simp [SnapshotProvider.provideContent, Git.showFile, h1]
  · unfold SnapshotProvider.anchorContent
    rw [hf2]
    simp [SnapshotProvider.provideContent, Git.showFile, htree2]

theorem tombstone_healing_consecutive_witness :
    (SnapshotProvider.findVisibleParentHash exConsecutive 3 = some 1 ∧
      SnapshotProvider.anchorContent exConsecutive 3 "a" =
        (treeFind [("a", "v1")] "a").getD "") ∧
    (SnapshotProvider.findVisibleParentHash (logWithout exConsecutive 2) 2 = some 1 ∧
      SnapshotProvider.anchorContent (logWithout exConsecutive 2) 2 "a" =
        (treeFind [("a", "v1")] "a").getD "") :=
  tombstone_healing_consecutive exConsecutive 1 [("a", "v1")] "a" (by decide) (by decide)
    (by decide) (by decide) (by decide) (by decide) (by decide)

/-- C3 counterexample: checkpoints `1 < 2 < 4` all mention `a`, but the
live checkpoint `3` (touching only `b`) sits between `2` and `4`; after
tombstoning `2`, the lookup anchored at `4` stops at `3`, whose
cumulative tree still carries checkpoint `2`'s content `v2` for `a` —
not checkpoint `1`'s state `v1` as the claim requires. -/
theorem tombstone_healing_fails_with_intervening_checkpoint :
    ((Git.getChangedFiles exIntervening.git 1).any (fun fc => fc.path = "a") = true ∧
      (Git.getChangedFiles exIntervening.git 2).any (fun fc => fc.path = "a") = true ∧
      (Git.getChangedFiles exIntervening.git 4).any (fun fc => fc.path = "a") = true ∧
      2 ∈ exIntervening.deletedSnapshotIds) ∧
    SnapshotProvider.findVisibleParentHash exIntervening 4 = some 3 ∧
    SnapshotProvider.anchorContent exIntervening 4 "a" = "v2" ∧
    Git.showFile exIntervening.git 1 "a" = "v1" ∧
    ¬ SnapshotProvider.anchorContent exIntervening 4 "a" =
        Git.showFile exIntervening.git 1 "a" := by
  decide

/-- C4: a successful restore rewrites the working tree to the target
snapshot's cumulative state on every path that is in the target tree or
tracked in the index (tracked paths absent from the target are removed
from disk), but a path that is untracked and absent from the target
keeps its current content — so bit-identity with the target holds on
tracked-or-target paths only, not for untracked files. -/
theorem restore_materializes_tracked_paths (s : ProviderState) (h : Nat) (src : Tree)
    (hsrc : s.git.trees[h]? = some src) :
    (SnapshotProvider.restoreSnapshot s h).1 = none ∧
    (SnapshotProvider.restoreSnapshot s h).2.git.trees = s.git.trees ∧
    ∀ p,
      (∀ c, treeFind src p = some c →
        treeFind (SnapshotProvider.restoreSnapshot s h).2.git.work p = some c) ∧
      (treeFind src p = none → ¬ treeFind s.git.index p = none →
        treeFind (SnapshotProvider.restoreSnapshot s h).2.git.work p = none) ∧
      (treeFind src p = none → treeFind s.git.index p = none →
        treeFind (SnapshotProvider.restoreSnapshot s h).2.git.work p =
          treeFind s.git.work p) := by
  have hres : Git.restore s.git h = some { s.git with
      work := src ++ s.git.work.filter fun e =>
        (treeFind src e.1).isNone && (treeFind s.git.index e.1).isNone } := by
    unfold Git.restore
    rw [hsrc]
  have hprov : SnapshotProvider.restoreSnapshot s h =
      (none, SnapshotProvider.saveMetadata { s with
        git := { s.git with work := src ++ s.git.work.filter fun e =>
          (treeFind src e.1).isNone && (treeFind s.git.index e.1).isNone },
        restoredSnapshotId := some h }) := by
    unfold SnapshotProvider.restoreSnapshot
    rw [hres]
  rw [hprov]
  refine ⟨rfl, rfl, fun p => ⟨?_, ?_, ?_⟩⟩
  · intro c hc
    exact treeFind_append_of_some _ hc
  · intro hs hi
    show treeFind (src ++ s.git.work.filter fun e =>
      (treeFind src e.1).isNone && (treeFind s.git.index e.1).isNone) p = none
    rw [treeFind_append_of_none _ hs]
    apply treeFind_filter_of_all_dropped
    intro c
    cases hidx : treeFind s.git.index p with
    | none => exact absurd hidx hi
    | some v => simp [hs, hidx]
  · intro hs hi
    show treeFind (src ++ s.git.work.filter fun e =>
      (treeFind src e.1).isNone && (treeFind s.git.index e.1).isNone) p =
        treeFind s.git.work p
    rw [treeFind_append_of_none _ hs]
    apply treeFind_filter_of_all_kept
    intro c
    simp [hs, hi]

theorem restore_materializes_tracked_paths_witness :
    (SnapshotProvider.restoreSnapshot exTwoSnaps 1).1 = none ∧
    treeFind (SnapshotProvider.restoreSnapshot exTwoSnaps 1).2.git.work "a" = some "v1" :=
  ⟨(restore_materializes_tracked_paths exTwoSnaps 1 [("a", "v1")] (by decide)).1,
    ((restore_materializes_tracked_paths exTwoSnaps 1 [("a", "v1")] (by decide)).2.2 "a").1
      "v1" (by decide)⟩

/-- C4 counterexample: the untracked file `u` (created after the last
snapshot, never staged) survives `restoreSnapshot 1`, so the working
tree is not bit-identical to the target's cumulative state and the
currently-present file absent from the target's tree is not deleted. -/
theorem restore_keeps_untracked_file :
    treeFind exUntracked.git.work "u" = some "x" ∧
    treeFind exUntracked.git.index "u" = none ∧
    exUntracked.git.trees[1]? = some [("a", "v1")] ∧
    treeFind [("a", "v1")] "u" = none ∧
    (SnapshotProvider.restoreSnapshot exUntracked 1).1 = none ∧
    treeFind (SnapshotProvider.restoreSnapshot exUntracked 1).2.git.work "u" = some "x" ∧
    ¬ treeFind (SnapshotProvider.restoreSnapshot exUntracked 1).2.git.work "u" =
        treeFind [("a", "v1")] "u" := by
  decide

/-- C9: when every snapshot before `h` is tombstoned (or none exists),
`findVisibleParentHash` walks back to the hidden initial commit and
returns its hash — not `None` — without raising any error, and the diff
anchor resolves to base-state content (the initial commit's tree is
empty, so the left side of the diff is empty content). -/
theorem walk_off_history_returns_initial_commit (s : ProviderState) (h : Nat) (p : String)
    (hlen : h < s.git.trees.length) (h1 : 1 ≤ h)
    (hbase : s.git.trees[0]? = some [])
    (h0 : 0 ∉ s.deletedSnapshotIds)
    (hall : ∀ j, j < h → 1 ≤ j → j ∈ s.deletedSnapshotIds) :
    SnapshotProvider.findVisibleParentHash s h = some 0 ∧
    SnapshotProvider.anchorContent s h p = "" := by
  have hf : SnapshotProvider.findVisibleParentHash s h = some 0 := by
    unfold SnapshotProvider.findVisibleParentHash
    rw [if_pos hlen]
    exact walkParent_all_deleted _ h h1 h0 hall
  refine ⟨hf, ?_⟩
  unfold SnapshotProvider.anchorContent
  rw [hf]
  simp [SnapshotProvider.provideContent, Git.showFile, hbase, treeFind]

theorem walk_off_history_returns_initial_commit_witness :
    SnapshotProvider.findVisibleParentHash exAllPriorTombstoned 2 = some 0 ∧
    SnapshotProvider.anchorContent exAllPriorTombstoned 2 "a" = "" :=
  walk_off_history_returns_initial_commit exAllPriorTombstoned 2 "a" (by decide)
    (by decide) (by decide) (by decide) (by decide)

/-- C9 counterexample: snapshot `1` has no earlier checkpoint at all,
yet `findVisibleParentHash` returns `some 0` (the initial commit), not
the `None` result the claim requires. -/
theorem findVisibleParentHash_start_of_history_not_none :
    SnapshotProvider.findVisibleParentHash exTwoSnaps 1 = some 0 ∧
    ¬ SnapshotProvider.findVisibleParentHash exTwoSnaps 1 = none := by
  decide

/-- C10: at engine startup, a missing metadata file leaves the freshly
constructed (empty) fields untouched and an unreadable or unparseable
one resets them, so either way the provider starts with empty metadata
and every previously tombstoned snapshot is visible in listings. -/
theorem loadMetadata_missing_or_invalid_resets_empty (file : Option (Option Meta))
    (g : GitState) (hf : file = none ∨ file = some none) :
    SnapshotProvider.loadMetadata emptyMeta file = emptyMeta ∧
    (SnapshotProvider.startup g (SnapshotProvider.loadMetadata emptyMeta file)).names = [] ∧
    (SnapshotProvider.startup g
      (SnapshotProvider.loadMetadata emptyMeta file)).restoredSnapshotId = none ∧
    (SnapshotProvider.startup g
      (SnapshotProvider.loadMetadata emptyMeta file)).deletedSnapshotIds = [] ∧
    SnapshotProvider.visibleSnapshots
        (SnapshotProvider.startup g (SnapshotProvider.loadMetadata emptyMeta file)) =
      (List.range g.trees.length).filter fun h => !(h = 0 : Bool) := by
  have hm : SnapshotProvider.loadMetadata emptyMeta file = emptyMeta := by
    rcases hf with hf | hf <;> rw [hf] <;> rfl
  rw [hm]
  refine ⟨rfl, rfl, rfl, rfl, ?_⟩
  apply List.filter_congr
  intro x _
  simp [SnapshotProvider.startup, emptyMeta]

theorem loadMetadata_missing_or_invalid_resets_empty_witness :
    SnapshotProvider.loadMetadata emptyMeta (some none) = emptyMeta ∧
    (SnapshotProvider.startup exStartupGit
      (SnapshotProvider.loadMetadata emptyMeta (some none))).names = [] ∧
    (SnapshotProvider.startup exStartupGit
      (SnapshotProvider.loadMetadata emptyMeta (some none))).restoredSnapshotId = none ∧
    (SnapshotProvider.startup exStartupGit
      (SnapshotProvider.loadMetadata emptyMeta (some none))).deletedSnapshotIds = [] ∧
    SnapshotProvider.visibleSnapshots
        (SnapshotProvider.startup exStartupGit
          (SnapshotProvider.loadMetadata emptyMeta (some none))) =
      (List.range exStartupGit.trees.length).filter fun h => !(h = 0 : Bool) :=
  loadMetadata_missing_or_invalid_resets_empty (some none) exStartupGit (Or.inr rfl)

end WorkspaceSnapshots
